import Mathlib

/-!
Matrix nmap scanner front end: command preview, scan orchestration, result rendering.

A shallow embedding of `src/static/script.js`.

* The command preview (`updateCommandPreview`) is a pure function of the list of checked
  option values (document order, as `getSelectedOptions` returns them) and of the text of
  the target element.
* The page is a record of the DOM properties the script reads and writes.
* `runScan` is an `async` function: the part before the first `await` is `runScan`, the
  continuations after `await fetch(...)` and `await response.json()` are `settle`.
* Code that can throw returns the state it leaves together with the exception, so that the
  `catch` block runs on what was already written.
* The built-in functions of the engine applied to values of the response are parameters
  (`Engine`).
-/

namespace NmapUI

/-! ## JavaScript values reachable through `flagMap[opt]` -/

/-- Values that a property read on the object literal `flagMap` can produce: a missing
property, one of the literal's own strings, a built-in function inherited from
`Object.prototype`, or `Object.prototype` itself (through the `__proto__` accessor). -/
inductive JSValue where
  | undefined
  | str (s : String)
  | builtin (name : String)
  | objectPrototype
  deriving DecidableEq, Repr

/-- JavaScript truthiness (`if (v)`): `undefined` and the empty string are falsy, every
object (functions included) is truthy. -/
def JSValue.truthy : JSValue → Bool
  | .undefined => false
  | .str s => s != ""
  | .builtin _ => true
  | .objectPrototype => true

/-- String conversion performed by a template literal. A built-in function prints in the
NativeFunction form of the language standard, as V8 lays it out. -/
def JSValue.toStr : JSValue → String
  | .undefined => "undefined"
  | .str s => s
  | .builtin name => "function " ++ name ++ "() \x7b [native code] \x7d"
  | .objectPrototype => "[object Object]"

/-- Names of the methods of `Object.prototype` other than `constructor`. -/
def objectPrototypeMethods : List String :=
  ["toString", "toLocaleString", "valueOf", "hasOwnProperty", "isPrototypeOf",
   "propertyIsEnumerable", "__defineGetter__", "__defineSetter__", "__lookupGetter__",
   "__lookupSetter__"]

/-- Property read on `Object.prototype`, the prototype of every object literal. -/
def objectPrototypeGet (key : String) : JSValue :=
  if key = "constructor" then .builtin "Object"
  else if key = "__proto__" then .objectPrototype
  else if key ∈ objectPrototypeMethods then .builtin key
  else .undefined

/-! ## Command preview -/

/-- The object literal `flagMap` of `updateCommandPreview`, own properties in declaration
order. -/
def flagMap : List (String × String) :=
  [("top_ports", "--top-ports 100"),
   ("service_detection", "-sV"),
   ("os_detection", "-O"),
   ("skip_ping", "-Pn"),
   ("fast_scan", "-T4"),
   ("verbose", "-v"),
   ("script_default", "-sC")]

/-- The seven keys of `flagMap`. -/
def optionIds : List String := flagMap.map Prod.fst

/-- The expression `flagMap[opt]`: own property first, then the prototype chain. -/
def flagMapGet (opt : String) : JSValue :=
  match flagMap.lookup opt with
  | some flag => .str flag
  | none => objectPrototypeGet opt

/-- Body of the `selected.forEach` callback: the new value of `cmd`. -/
def appendFlag (cmd opt : String) : String :=
  if (flagMapGet opt).truthy then cmd ++ (" " ++ (flagMapGet opt).toStr) else cmd

/-- The string `updateCommandPreview` assigns to the preview element, as a function of the
checked option values `selected` and the text `target` of the target element. -/
def updateCommandPreview (selected : List String) (target : String) : String :=
  let cmd := "nmap"
  let cmd := selected.foldl appendFlag cmd
  let cmd := if !selected.contains "top_ports" then cmd ++ " --top-ports 20" else cmd
  cmd ++ (" " ++ target)

/-- Text that one selected identifier adds to the command: a space and the looked-up value
when that value is truthy, nothing otherwise. -/
def flagText (opt : String) : String :=
  if (flagMapGet opt).truthy then " " ++ (flagMapGet opt).toStr else ""

/-- The flags placed between the binary name and the target for a selection drawn from
the option set: the flag of each selected option, then the default port range when
`top_ports` is not selected. -/
def emittedFlags (selected : List String) : List String :=
  selected.filterMap (fun opt => flagMap.lookup opt) ++
    (if selected.contains "top_ports" then [] else ["--top-ports 20"])

/-- A port-range flag starts with `--top-ports`. -/
def isPortRangeFlag (flag : String) : Bool :=
  flag.toList.take 11 == "--top-ports".toList

/-! ## Response data -/

/-- One entry of `data.ports`. The state, the protocol and the service name may be absent
from the JSON object; for the state and the protocol `none` also stands for a value that is
not a string, on which the call of `toUpperCase` throws as well. -/
structure Port where
  port : Int
  state : Option String
  protocol : Option String
  service : Option String
  deriving DecidableEq, Repr

/-- The `data` object of a successful response. -/
structure ScanResult where
  ports : List Port
  os_info : Option String
  scan_info : Option String
  command : String
  raw : Option String
  deriving DecidableEq, Repr

/-- The parsed body of the response of `/api/scan`, when it is an object. The field `data`
is `none` when the body holds no `data` object with an array `ports`. -/
structure ApiResponse where
  success : Bool
  data : Option ScanResult
  error : String
  deriving DecidableEq, Repr

/-! ## Platform functions used by the renderer -/

/-- The built-in functions of the JavaScript engine that the renderer applies to values of
the response. They are parameters of the model: `toUpperCase` is the string method,
`numberToString` the conversion of a number inside a template literal, and `typeError` the
text of the `TypeError` thrown when the named property is read from `undefined`. -/
structure Engine where
  toUpperCase : String → String
  numberToString : Int → String
  typeError : String → String

/-- An engine for evaluating examples: upper case of the ASCII letters, all decimal digits
of a number, and one fixed layout of the error text. -/
def asciiEngine : Engine :=
  { toUpperCase := fun s => String.mk (s.toList.map Char.toUpper)
    numberToString := fun n => toString n
    typeError := fun property =>
      "TypeError: Cannot read properties of undefined (reading " ++ property ++ ")" }

/-- The same engine with another text for its `TypeError`s. -/
def Engine.withTypeError (js : Engine) (text : String → String) : Engine :=
  { js with typeError := text }

/-- Truthiness of a possibly absent string (`x && ...`, `x || ...`, `if (x)`). -/
def strTruthy : Option String → Bool
  | some s => s != ""
  | none => false

/-- Serialisation of one character of a text node, as `innerHTML` returns it. -/
def escapeChar (c : Char) : List Char :=
  if c = '&' then "&amp;".toList
  else if c = '<' then "&lt;".toList
  else if c = '>' then "&gt;".toList
  else if c = '\u00A0' then "&nbsp;".toList
  else [c]

/-- The function `escapeHtml`: the text is stored as the text content of a fresh element and
read back as markup. -/
def escapeHtml (text : String) : String :=
  String.mk (text.toList.flatMap escapeChar)

/-! ## The page -/

/-- The DOM properties that the script reads and writes. -/
structure Page where
  loading : Bool
  disabled : Bool
  visible : Bool
  scanComplete : Bool
  portsFound : String
  servicesFound : String
  osDetected : String
  scanTime : String
  rawContent : String
  tbody : String
  deriving DecidableEq, Repr

/-- The function `clearResults`. -/
def clearResults (page : Page) : Page :=
  { page with
    portsFound := "--"
    servicesFound := "--"
    osDetected := "--"
    scanTime := ""
    rawContent := "Scanning..."
    tbody := "\n        <tr class=\"placeholder-row\">\n            <td colspan=\"4\">\n                <span class=\"scanning-indicator\">◉ Scanning in progress...</span>\n            </td>\n        </tr>\n    " }

/-- Markup of one port row, the template literal of the `map` callback. The call
`port.state.toUpperCase()` throws when the state is absent, and likewise for the protocol;
nothing is written before. The animation delay is a small multiple of 50 and prints with all
its digits; the port number is printed by the engine. -/
def portRow (js : Engine) (index : Nat) (port : Port) : Except String String :=
  match port.state with
  | none => .error (js.typeError "toUpperCase")
  | some state =>
    match port.protocol with
    | none => .error (js.typeError "toUpperCase")
    | some protocol =>
      .ok ("\n            <tr style=\"animation-delay: " ++ toString (index * 50)
        ++ "ms\" class=\"port-row\">\n                <td><span class=\"port-number\">"
        ++ js.numberToString port.port
        ++ "</span></td>\n                <td><span class=\"state-" ++ state
        ++ "\">" ++ js.toUpperCase state
        ++ "</span></td>\n                <td>" ++ js.toUpperCase protocol
        ++ "</td>\n                <td>" ++ escapeHtml (port.service.getD "")
        ++ "</td>\n            </tr>\n        ")

/-- The call `data.ports.map(...)`, from index `index` on: the rows in order, or the first
exception thrown by a row. -/
def portRows (js : Engine) (index : Nat) : List Port → Except String (List String)
  | [] => .ok []
  | port :: rest =>
    match portRow js index port with
    | .error error => .error error
    | .ok row =>
      match portRows js (index + 1) rest with
      | .error error => .error error
      | .ok rows => .ok (row :: rows)

/-- Markup assigned to the table body when no port was returned. -/
def noPortsRow : String :=
  "\n            <tr class=\"placeholder-row\">\n                <td colspan=\"4\">No open ports detected</td>\n            </tr>\n        "

/-- The function `displayResults`: the page it leaves and the exception it throws, if any.
Without `data` it throws on its first statement. Otherwise the summary cards are written
first; when a row throws, the table body and the raw output are left as they were. -/
def displayResults (js : Engine) (page : Page) (data : Option ScanResult) :
    Page × Option String :=
  match data with
  | none => (page, some (js.typeError "ports"))
  | some data =>
    let portCount := data.ports.length
    let serviceCount :=
      (data.ports.filter (fun p => strTruthy p.service && p.service != some "unknown")).length
    let page :=
      { page with
        portsFound := toString portCount
        servicesFound := toString serviceCount
        osDetected := if strTruthy data.os_info then data.os_info.getD "" else "Not detected"
        scanTime :=
          if strTruthy data.scan_info then "Completed in " ++ data.scan_info.getD ""
          else page.scanTime }
    let rawText :=
      "Command: " ++ data.command ++ "\n\n"
        ++ (if strTruthy data.raw then data.raw.getD "" else "No raw output available")
    if data.ports.length == 0 then
      ({ page with tbody := noPortsRow, rawContent := rawText }, none)
    else
      match portRows js 0 data.ports with
      | .error error => (page, some error)
      | .ok rows => ({ page with tbody := String.join rows, rawContent := rawText }, none)

/-- Markup of the error row, around the escaped message. -/
def errorRowOpen : String :=
  "\n        <tr>\n            <td colspan=\"4\">\n                <div class=\"error-message\">\n                    ⚠ ERROR: "

/-- Markup closing the error row. -/
def errorRowClose : String :=
  "\n                </div>\n            </td>\n        </tr>\n    "

/-- The function `displayError`. -/
def displayError (page : Page) (message : String) : Page :=
  { page with
    tbody := errorRowOpen ++ escapeHtml message ++ errorRowClose
    rawContent := "Error: " ++ message }

/-! ## Scan orchestration -/

/-- Calls observable from outside `runScan`, recorded in program order. -/
inductive Effect where
  | request (options : List String)
  | displayResults
  | displayError (message : String)
  | consoleError (error : String)
  deriving DecidableEq, Repr

/-- The `await` at which an invocation of `runScan` is suspended. -/
inductive Stage where
  | awaitingFetch
  | awaitingJson
  deriving DecidableEq, Repr

/-- The page together with the checked option values, the suspended invocations of
`runScan` and the record of calls made so far. -/
structure World where
  page : Page
  checked : List String
  pending : List Stage
  trace : List Effect
  deriving DecidableEq, Repr

/-- The message shown when the round trip fails. -/
def connectFailedMessage : String :=
  "Failed to connect to the server. Please ensure the backend is running."

/-- The function `runScan` up to its first `await`: the guard, the loading state, the reset
of the results and the request. -/
def runScan (w : World) : World :=
  if w.page.loading then w
  else
    let page := { w.page with loading := true, disabled := true }
    let page := clearResults page
    let page := { page with visible := true, scanComplete := false }
    { w with
      page := page
      trace := w.trace ++ [Effect.request w.checked]
      pending := w.pending ++ [Stage.awaitingFetch] }

/-- The `try` block after the body has been parsed: the world it leaves and the exception
it throws, if any. On success `displayResults` is called; when it throws, what it wrote
before stays on the page and the results section is not marked complete. -/
def handleResponse (js : Engine) (w : World) (resp : ApiResponse) : World × Option String :=
  if resp.success then
    let shown := displayResults js w.page resp.data
    let w1 := { w with page := shown.1, trace := w.trace ++ [Effect.displayResults] }
    match shown.2 with
    | some error => (w1, some error)
    | none => ({ w1 with page := { w1.page with scanComplete := true } }, none)
  else
    ({ w with
       page := displayError w.page resp.error
       trace := w.trace ++ [Effect.displayError resp.error] }, none)

/-- The `catch` block. -/
def catchBlock (w : World) (error : String) : World :=
  { w with
    page := displayError w.page connectFailedMessage
    trace := w.trace ++ [Effect.displayError connectFailedMessage, Effect.consoleError error] }

/-- The `finally` block, after which invocation `i` is over. -/
def finallyBlock (w : World) (i : Nat) : World :=
  { w with
    page := { w.page with loading := false, disabled := false }
    pending := w.pending.eraseIdx i }

/-- What an awaited promise settles with: the request is fulfilled or rejected; the parsing
of the body is rejected, or it yields `null`, or it yields an object. -/
inductive Settlement where
  | fetchFulfilled
  | fetchRejected (error : String)
  | jsonRejected (error : String)
  | jsonNull
  | jsonFulfilled (resp : ApiResponse)
  deriving DecidableEq, Repr

/-- The `await` that a settlement resumes. -/
def Settlement.stage : Settlement → Stage
  | .fetchFulfilled => .awaitingFetch
  | .fetchRejected _ => .awaitingFetch
  | .jsonRejected _ => .awaitingJson
  | .jsonNull => .awaitingJson
  | .jsonFulfilled _ => .awaitingJson

/-- The same settlement with another text for the error of a rejection. -/
def Settlement.withError (error : String) : Settlement → Settlement
  | .fetchFulfilled => .fetchFulfilled
  | .fetchRejected _ => .fetchRejected error
  | .jsonRejected _ => .jsonRejected error
  | .jsonNull => .jsonNull
  | .jsonFulfilled resp => .jsonFulfilled resp

/-- The rest of the `try` block when settlement `s` resumes it: the world it leaves and the
exception that reaches the `catch` block, if any. A rejected `await` throws at once, and so
does the read of `data.success` when the body is `null`. -/
def tryBlock (js : Engine) (w : World) : Settlement → World × Option String
  | .fetchFulfilled => (w, none)
  | .fetchRejected error => (w, some error)
  | .jsonRejected error => (w, some error)
  | .jsonNull => (w, some (js.typeError "success"))
  | .jsonFulfilled resp => handleResponse js w resp

/-- The `catch` block, run when the `try` block has thrown. -/
def catchIfThrown (tried : World × Option String) : World :=
  match tried.2 with
  | some error => catchBlock tried.1 error
  | none => tried.1

/-- The rest of `runScan` for the suspended invocation `i`, resumed by settlement `s`. A
fulfilled request leads to the second `await`; every other settlement runs the rest of the
`try` block, the `catch` block if it threw, and the `finally` block. A settlement that
matches no suspended invocation changes nothing. -/
def settle (js : Engine) (w : World) (i : Nat) (s : Settlement) : World :=
  if w.pending[i]? = some s.stage then
    match s with
    | .fetchFulfilled => { w with pending := w.pending.set i Stage.awaitingJson }
    | .fetchRejected error => finallyBlock (catchIfThrown (tryBlock js w (.fetchRejected error))) i
    | .jsonRejected error => finallyBlock (catchIfThrown (tryBlock js w (.jsonRejected error))) i
    | .jsonNull => finallyBlock (catchIfThrown (tryBlock js w .jsonNull)) i
    | .jsonFulfilled resp => finallyBlock (catchIfThrown (tryBlock js w (.jsonFulfilled resp))) i
  else w

/-- What can happen to the page: an invocation of `runScan`, or a settlement. -/
inductive Event where
  | invoke
  | settled (i : Nat) (s : Settlement)
  deriving DecidableEq, Repr

/-- One event. -/
def step (js : Engine) (w : World) : Event → World
  | .invoke => runScan w
  | .settled i s => settle js w i s

/-- A sequence of events. -/
def run (js : Engine) (w : World) (events : List Event) : World :=
  events.foldl (step js) w

/-- The orchestrator is idle: the button is not loading and no invocation is suspended. -/
def World.idle (w : World) : Prop :=
  w.page.loading = false ∧ w.pending = []

/-- A page as it is before any scan. -/
def freshPage : Page :=
  { loading := false, disabled := false, visible := false, scanComplete := false
    portsFound := "--", servicesFound := "--", osDetected := "--", scanTime := ""
    rawContent := "", tbody := "" }

/-- A world as it is before any scan, with the given boxes checked. -/
def freshWorld (checked : List String) : World :=
  { page := freshPage, checked := checked, pending := [], trace := [] }

/-- At most one invocation is suspended, and the button is loading while one is. -/
def World.inv (w : World) : Prop :=
  w.pending = [] ∨ ∃ st, w.pending = [st] ∧ w.page.loading = true

/-- The counting condition in the words of the specification: the service name of a port
entry is present, non-empty and not the sentinel `unknown`. -/
def hasKnownService (p : Port) : Bool :=
  match p.service with
  | some name => decide (name ≠ "" ∧ name ≠ "unknown")
  | none => false

/-! ## Facts about the command preview -/

theorem join_cons (s : String) (l : List String) :
    String.join (s :: l) = s ++ String.join l := by
  apply String.ext
  simp [String.join_eq]

theorem join_nil : String.join [] = "" := by
  apply String.ext
  simp [String.join_eq]

theorem join_append (l₁ l₂ : List String) :
    String.join (l₁ ++ l₂) = String.join l₁ ++ String.join l₂ := by
  apply String.ext
  simp [String.join_eq]

theorem appendFlag_eq (cmd opt : String) : appendFlag cmd opt = cmd ++ flagText opt := by
  unfold appendFlag flagText
  split
  · rfl
  · apply String.ext; simp

/-- The `forEach` loop appends the texts of the selected identifiers one after the other,
in the order of the selection. -/
theorem foldl_appendFlag (selected : List String) (cmd : String) :
    selected.foldl appendFlag cmd = cmd ++ String.join (selected.map flagText) := by
  induction selected generalizing cmd with
  | nil => apply String.ext; simp [join_nil]
  | cons opt rest ih =>
    rw [List.foldl_cons, ih, appendFlag_eq, List.map_cons, join_cons, String.append_assoc]

/-- Closed form of the preview string. -/
theorem updateCommandPreview_eq (selected : List String) (target : String) :
    updateCommandPreview selected target
      = "nmap" ++ String.join (selected.map flagText)
          ++ (if selected.contains "top_ports" then "" else " --top-ports 20")
          ++ (" " ++ target) := by
  unfold updateCommandPreview
  simp only [foldl_appendFlag]
  cases selected.contains "top_ports"
  · simp
  · apply String.ext; simp

theorem mem_of_lookup {l : List (String × String)} {a b : String}
    (h : l.lookup a = some b) : (a, b) ∈ l := by
  induction l with
  | nil => simp at h
  | cons p t ih =>
    obtain ⟨k, v⟩ := p
    rw [List.lookup_cons] at h
    by_cases hk : (a == k) = true
    · rw [hk] at h
      have hak : a = k := by simpa using hk
      have hvb : v = b := by simpa using h
      subst hak; subst hvb
      exact List.mem_cons_self _ _
    · have hk2 : (a == k) = false := by simpa using hk
      rw [hk2] at h
      exact List.mem_cons_of_mem _ (ih h)

/-- The text added for a key of the flag table is a space and its flag. -/
theorem flagText_of_lookup (opt flag : String) (h : flagMap.lookup opt = some flag) :
    flagText opt = " " ++ flag := by
  have hmem : (opt, flag) ∈ flagMap := mem_of_lookup h
  simp only [flagMap, List.mem_cons, Prod.mk.injEq, List.mem_nil_iff, or_false] at hmem
  rcases hmem with ⟨rfl, rfl⟩ | ⟨rfl, rfl⟩ | ⟨rfl, rfl⟩ | ⟨rfl, rfl⟩ | ⟨rfl, rfl⟩ | ⟨rfl, rfl⟩
    | ⟨rfl, rfl⟩ <;> decide

/-- Every option identifier is a key of the flag table with a flag. -/
theorem lookup_of_mem_optionIds (opt : String) (h : opt ∈ optionIds) :
    ∃ flag, flagMap.lookup opt = some flag := by
  simp only [optionIds, flagMap, List.map_cons, List.map_nil, List.mem_cons, List.mem_nil_iff,
    or_false] at h
  rcases h with rfl | rfl | rfl | rfl | rfl | rfl | rfl
  · exact ⟨"--top-ports 100", by decide⟩
  · exact ⟨"-sV", by decide⟩
  · exact ⟨"-O", by decide⟩
  · exact ⟨"-Pn", by decide⟩
  · exact ⟨"-T4", by decide⟩
  · exact ⟨"-v", by decide⟩
  · exact ⟨"-sC", by decide⟩

/-- Only the flag of `top_ports` is a port-range flag. -/
theorem isPortRangeFlag_of_lookup (opt flag : String) (h : flagMap.lookup opt = some flag) :
    isPortRangeFlag flag = true ↔ opt = "top_ports" := by
  have hmem : (opt, flag) ∈ flagMap := mem_of_lookup h
  simp only [flagMap, List.mem_cons, Prod.mk.injEq, List.mem_nil_iff, or_false] at hmem
  rcases hmem with ⟨rfl, rfl⟩ | ⟨rfl, rfl⟩ | ⟨rfl, rfl⟩ | ⟨rfl, rfl⟩ | ⟨rfl, rfl⟩ | ⟨rfl, rfl⟩
    | ⟨rfl, rfl⟩ <;> decide

/-- For a selection drawn from the option set, the texts added by the loop are the selected
flags, each after one space. -/
theorem join_flagText_of_optionIds (selected : List String)
    (hsub : ∀ opt ∈ selected, opt ∈ optionIds) :
    String.join (selected.map flagText)
      = String.join ((selected.filterMap (fun opt => flagMap.lookup opt)).map
          (fun flag => " " ++ flag)) := by
  induction selected with
  | nil => rfl
  | cons opt rest ih =>
    obtain ⟨flag, hflag⟩ := lookup_of_mem_optionIds opt (hsub opt (List.mem_cons_self _ _))
    have hrest : ∀ o ∈ rest, o ∈ optionIds := fun o ho => hsub o (List.mem_cons_of_mem _ ho)
    rw [List.map_cons, join_cons, List.filterMap_cons, hflag]
    simp only [List.map_cons]
    rw [join_cons, ih hrest, flagText_of_lookup opt flag hflag]

/-- Among the flags of a duplicate-free selection drawn from the option set, the port-range
flags are the explicit one when `top_ports` is selected and none otherwise. -/
theorem filter_portRange_selected (selected : List String) (hnd : selected.Nodup)
    (hsub : ∀ opt ∈ selected, opt ∈ optionIds) :
    (selected.filterMap (fun opt => flagMap.lookup opt)).filter isPortRangeFlag
      = if "top_ports" ∈ selected then ["--top-ports 100"] else [] := by
  induction selected with
  | nil => rfl
  | cons opt rest ih =>
    obtain ⟨flag, hflag⟩ := lookup_of_mem_optionIds opt (hsub opt (List.mem_cons_self _ _))
    have hrest : ∀ o ∈ rest, o ∈ optionIds := fun o ho => hsub o (List.mem_cons_of_mem _ ho)
    have hnd2 := List.nodup_cons.mp hnd
    have ih2 := ih hnd2.2 hrest
    rw [List.filterMap_cons, hflag]
    simp only
    by_cases htop : opt = "top_ports"
    · subst htop
      have hf : flag = "--top-ports 100" := by
        have : flagMap.lookup "top_ports" = some "--top-ports 100" := by decide
        rw [this] at hflag
        exact (Option.some.inj hflag).symm
      subst hf
      have hp : isPortRangeFlag "--top-ports 100" = true := by decide
      rw [List.filter_cons_of_pos hp, ih2, if_neg hnd2.1]
      simp
    · have hp : ¬ (isPortRangeFlag flag = true) := fun hc =>
        htop ((isPortRangeFlag_of_lookup opt flag hflag).mp hc)
      rw [List.filter_cons_of_neg hp, ih2]
      have hiff : "top_ports" ∈ opt :: rest ↔ "top_ports" ∈ rest := by
        constructor
        · intro hm
          rcases List.mem_cons.mp hm with h1 | h1
          · exact absurd h1.symm htop
          · exact h1
        · exact List.mem_cons_of_mem _
      simp only [hiff]

/-! ## Facts about escaping and rendering -/

theorem escapeChar_no_lt (c : Char) : '<' ∉ escapeChar c := by
  unfold escapeChar
  split_ifs with h1 h2 h3 h4
  · decide
  · decide
  · decide
  · decide
  · simp only [List.mem_singleton]
    exact fun h => h2 h.symm

theorem escapeChar_no_gt (c : Char) : '>' ∉ escapeChar c := by
  unfold escapeChar
  split_ifs with h1 h2 h3 h4
  · decide
  · decide
  · decide
  · decide
  · simp only [List.mem_singleton]
    exact fun h => h3 h.symm

/-- Escaped text contains no `<`. -/
theorem escapeHtml_no_lt (text : String) : '<' ∉ (escapeHtml text).toList := by
  simp only [escapeHtml, String.toList, List.mem_flatMap, not_exists, not_and]
  exact fun c _ => escapeChar_no_lt c

/-- Escaped text contains no `>`. -/
theorem escapeHtml_no_gt (text : String) : '>' ∉ (escapeHtml text).toList := by
  simp only [escapeHtml, String.toList, List.mem_flatMap, not_exists, not_and]
  exact fun c _ => escapeChar_no_gt c

/-- Every `&` of escaped text starts one of the four character references. -/
theorem escapeChar_amp (c : Char) (h : '&' ∈ escapeChar c) :
    escapeChar c ∈ ["&amp;".toList, "&lt;".toList, "&gt;".toList, "&nbsp;".toList] := by
  unfold escapeChar at h ⊢
  split_ifs at h ⊢ with h1 h2 h3 h4
  · simp
  · simp
  · simp
  · simp
  · simp only [List.mem_singleton] at h
    exact absurd h.symm h1

/-! ## Facts about the orchestrator -/

theorem inv_of_idle (w : World) (h : w.idle) : w.inv := Or.inl h.2

theorem runScan_inv (w : World) (h : w.inv) : (runScan w).inv := by
  unfold runScan
  by_cases hl : w.page.loading = true
  · simpa [hl] using h
  · have hl2 : w.page.loading = false := by simpa using hl
    rcases h with h0 | ⟨st, _, hlt⟩
    · right
      exact ⟨Stage.awaitingFetch, by simp [hl2, h0, clearResults]⟩
    · rw [hlt] at hl2
      exact absurd hl2 (by decide)

/-- The `try` block touches neither the suspended invocations nor the checked boxes. -/
theorem handleResponse_frame (js : Engine) (w : World) (resp : ApiResponse) :
    (handleResponse js w resp).1.pending = w.pending
    ∧ (handleResponse js w resp).1.checked = w.checked := by
  unfold handleResponse
  by_cases hs : resp.success = true
  · rw [if_pos hs]
    dsimp only
    cases (displayResults js w.page resp.data).2 <;> exact ⟨rfl, rfl⟩
  · rw [if_neg hs]
    exact ⟨rfl, rfl⟩

theorem tryBlock_frame (js : Engine) (w : World) (s : Settlement) :
    (tryBlock js w s).1.pending = w.pending ∧ (tryBlock js w s).1.checked = w.checked := by
  cases s with
  | fetchFulfilled => exact ⟨rfl, rfl⟩
  | fetchRejected e => exact ⟨rfl, rfl⟩
  | jsonRejected e => exact ⟨rfl, rfl⟩
  | jsonNull => exact ⟨rfl, rfl⟩
  | jsonFulfilled resp => exact handleResponse_frame js w resp

theorem catchIfThrown_frame (tried : World × Option String) :
    (catchIfThrown tried).pending = tried.1.pending
    ∧ (catchIfThrown tried).checked = tried.1.checked := by
  unfold catchIfThrown
  split <;> exact ⟨rfl, rfl⟩

/-- A settlement that ends an invocation runs the `finally` block on a world with the same
suspended invocations and checked boxes. -/
theorem settle_final (js : Engine) (w : World) (i : Nat) (s : Settlement)
    (hp : w.pending[i]? = some s.stage) (hfin : s ≠ Settlement.fetchFulfilled) :
    settle js w i s = finallyBlock (catchIfThrown (tryBlock js w s)) i
    ∧ (catchIfThrown (tryBlock js w s)).pending = w.pending
    ∧ (catchIfThrown (tryBlock js w s)).checked = w.checked := by
  have hframe : (catchIfThrown (tryBlock js w s)).pending = w.pending
      ∧ (catchIfThrown (tryBlock js w s)).checked = w.checked :=
    ⟨(catchIfThrown_frame _).1.trans (tryBlock_frame js w s).1,
     (catchIfThrown_frame _).2.trans (tryBlock_frame js w s).2⟩
  refine ⟨?_, hframe⟩
  unfold settle
  rw [if_pos hp]
  cases s with
  | fetchFulfilled => exact absurd rfl hfin
  | fetchRejected e => rfl
  | jsonRejected e => rfl
  | jsonNull => rfl
  | jsonFulfilled resp => rfl

theorem finallyBlock_inv_single (w : World) (st : Stage) (h : w.pending = [st]) :
    (finallyBlock w 0).inv := by
  left
  simp [finallyBlock, h]

theorem settle_inv (js : Engine) (w : World) (i : Nat) (s : Settlement) (h : w.inv) :
    (settle js w i s).inv := by
  by_cases hp : w.pending[i]? = some s.stage
  · rcases h with h0 | ⟨st, hst, hlt⟩
    · rw [h0] at hp
      simp at hp
    · have hi : i = 0 := by
        rw [hst] at hp
        cases i with
        | zero => rfl
        | succ n => simp at hp
      subst hi
      by_cases hfin : s = Settlement.fetchFulfilled
      · subst hfin
        have hs : settle js w 0 Settlement.fetchFulfilled
            = { w with pending := w.pending.set 0 Stage.awaitingJson } := by
          unfold settle
          rw [if_pos hp]
        rw [hs]
        right
        exact ⟨Stage.awaitingJson, by simp [hst], hlt⟩
      · obtain ⟨he, hpend, _⟩ := settle_final js w 0 s hp hfin
        rw [he]
        exact finallyBlock_inv_single _ st (hpend.trans hst)
  · unfold settle
    rw [if_neg hp]
    exact h

theorem step_inv (js : Engine) (w : World) (e : Event) (h : w.inv) : (step js w e).inv := by
  cases e with
  | invoke => exact runScan_inv w h
  | settled i s => exact settle_inv js w i s h

theorem run_inv (js : Engine) (events : List Event) (w : World) (h : w.inv) :
    (run js w events).inv := by
  induction events generalizing w with
  | nil => exact h
  | cons e rest ih => exact ih (step js w e) (step_inv js w e h)

theorem length_le_one_of_inv (w : World) (h : w.inv) : w.pending.length ≤ 1 := by
  rcases h with h0 | ⟨st, hst, _⟩
  · simp [h0]
  · simp [hst]

/-! ## The command preview: order of the flags, unknown identifiers, port range -/

/-- C1, as stated, fails: the selections `[fast_scan, service_detection]` and
`[service_detection, fast_scan]` are permutations of each other and give different command
strings; the first one has its flags against the declaration order of the flag table. -/
theorem preview_depends_on_selection_order :
    List.Perm ["fast_scan", "service_detection"] ["service_detection", "fast_scan"]
    ∧ updateCommandPreview ["fast_scan", "service_detection"] "10.0.0.5"
        = "nmap -T4 -sV --top-ports 20 10.0.0.5"
    ∧ updateCommandPreview ["service_detection", "fast_scan"] "10.0.0.5"
        = "nmap -sV -T4 --top-ports 20 10.0.0.5"
    ∧ updateCommandPreview ["fast_scan", "service_detection"] "10.0.0.5"
        ≠ updateCommandPreview ["service_detection", "fast_scan"] "10.0.0.5" :=
  ⟨List.Perm.swap _ _ _, by decide, by decide, by decide⟩

/-- C1, amended: for every selection and every target the command string is `nmap`, then
the text of each selected identifier in the order of the selection, then the default port
range when `top_ports` is not selected, then a space and the target; and the text of each
of the seven keys of the flag table is a space followed by its flag. -/
theorem preview_flags_in_selection_order (selected : List String) (target : String) :
    updateCommandPreview selected target
        = "nmap" ++ String.join (selected.map flagText)
            ++ (if selected.contains "top_ports" then "" else " --top-ports 20")
            ++ (" " ++ target)
    ∧ flagMap.map (fun entry => flagText entry.1) = flagMap.map (fun entry => " " ++ entry.2) :=
  ⟨updateCommandPreview_eq selected target, by decide⟩

/-- C2, at the failing input: the selection `[constructor]` holds no key of the flag table,
so removing the unknown identifiers leaves the empty selection, whose command is
`nmap --top-ports 20 10.0.0.5`; the code instead prints the inherited property
`Object.prototype.constructor` into the command. -/
theorem preview_inherited_property_leaks :
    ["constructor"].filter (fun opt => decide (opt ∈ optionIds)) = []
    ∧ updateCommandPreview [] "10.0.0.5" = "nmap --top-ports 20 10.0.0.5"
    ∧ updateCommandPreview ["constructor"] "10.0.0.5"
        = "nmap function Object() \x7b [native code] \x7d --top-ports 20 10.0.0.5"
    ∧ updateCommandPreview ["constructor"] "10.0.0.5"
        ≠ updateCommandPreview
            (["constructor"].filter (fun opt => decide (opt ∈ optionIds))) "10.0.0.5" :=
  ⟨by decide, by decide, by decide, by decide⟩

/-- C3: for a duplicate-free selection drawn from the option set, the command string is
`nmap`, the emitted flags each after one space, a space and the target, and exactly one of
the emitted flags is a port-range flag: `--top-ports 100` when `top_ports` is selected,
`--top-ports 20` otherwise. -/
theorem preview_exactly_one_port_range_flag (selected : List String) (target : String)
    (hnd : selected.Nodup) (hsub : ∀ opt ∈ selected, opt ∈ optionIds) :
    updateCommandPreview selected target
        = "nmap" ++ String.join ((emittedFlags selected).map (fun flag => " " ++ flag))
            ++ (" " ++ target)
    ∧ (emittedFlags selected).filter isPortRangeFlag
        = [if "top_ports" ∈ selected then "--top-ports 100" else "--top-ports 20"] := by
  constructor
  · rw [updateCommandPreview_eq, join_flagText_of_optionIds selected hsub]
    unfold emittedFlags
    cases selected.contains "top_ports"
    · simp only [List.map_append, join_append, Bool.false_eq_true, if_false]
      apply String.ext
      simp [String.join_eq]
    · simp only [if_true, List.append_nil]
      apply String.ext
      simp
  · unfold emittedFlags
    rw [List.filter_append, filter_portRange_selected selected hnd hsub]
    by_cases htop : "top_ports" ∈ selected
    · have hc : selected.contains "top_ports" = true := by simpa using htop
      simp [htop, hc]
    · have hc : selected.contains "top_ports" = false := by simpa using htop
      have hp : isPortRangeFlag "--top-ports 20" = true := by decide
      simp [htop, hc, hp]

/-- C3 at the selections `[service_detection, top_ports]`. -/
theorem preview_exactly_one_port_range_flag_witness :
    List.Nodup ["service_detection", "top_ports"]
    ∧ (∀ opt ∈ ["service_detection", "top_ports"], opt ∈ optionIds)
    ∧ updateCommandPreview ["service_detection", "top_ports"] "10.0.0.5"
        = "nmap" ++ String.join ((emittedFlags ["service_detection", "top_ports"]).map
            (fun flag => " " ++ flag)) ++ (" " ++ "10.0.0.5")
    ∧ (emittedFlags ["service_detection", "top_ports"]).filter isPortRangeFlag
        = [if "top_ports" ∈ ["service_detection", "top_ports"] then "--top-ports 100"
           else "--top-ports 20"] :=
  ⟨by decide, by decide,
   preview_exactly_one_port_range_flag ["service_detection", "top_ports"] "10.0.0.5"
     (by decide) (by decide)⟩

/-- For a selection without `top_ports` drawn from the option set, the command is `nmap`,
the selected flags each after one space, ` --top-ports 20`, a space and the target. -/
theorem preview_default_port_range (selected : List String) (target : String)
    (hsub : ∀ opt ∈ selected, opt ∈ optionIds) (htop : "top_ports" ∉ selected) :
    updateCommandPreview selected target
      = "nmap" ++ String.join ((selected.filterMap (fun opt => flagMap.lookup opt)).map
          (fun flag => " " ++ flag)) ++ " --top-ports 20" ++ (" " ++ target) := by
  have hc : selected.contains "top_ports" = false := by simpa using htop
  rw [updateCommandPreview_eq, join_flagText_of_optionIds selected hsub, hc]
  rfl

/-- The two previews given as examples in the specification. -/
theorem preview_examples :
    updateCommandPreview [] "scanme.example.com" = "nmap --top-ports 20 scanme.example.com"
    ∧ updateCommandPreview ["service_detection", "fast_scan"] "10.0.0.5"
        = "nmap -sV -T4 --top-ports 20 10.0.0.5" :=
  ⟨by decide, by decide⟩

/-- C4, at the failing input: the selection `[service_detection, __proto__]` does not
contain `top_ports` and its only recognized option is `service_detection`, so the command
should be `nmap -sV --top-ports 20 10.0.0.5`; the code also prints the inherited
`__proto__` value between the flag and the default port range. -/
theorem preview_extra_text_without_top_ports :
    "top_ports" ∉ ["service_detection", "__proto__"]
    ∧ ["service_detection", "__proto__"].filter (fun opt => decide (opt ∈ optionIds))
        = ["service_detection"]
    ∧ updateCommandPreview ["service_detection", "__proto__"] "10.0.0.5"
        = "nmap -sV [object Object] --top-ports 20 10.0.0.5"
    ∧ updateCommandPreview ["service_detection", "__proto__"] "10.0.0.5"
        ≠ "nmap -sV --top-ports 20 10.0.0.5" :=
  ⟨by decide, by decide, by decide, by decide⟩

/-- An identifier that is neither a key of the flag table nor the name of an inherited
property adds nothing to the command. -/
theorem flagText_of_undefined (opt : String) (hkey : opt ∉ optionIds)
    (hplain : objectPrototypeGet opt = JSValue.undefined) : flagText opt = "" := by
  have hnone : flagMap.lookup opt = none := by
    cases hl : flagMap.lookup opt with
    | none => rfl
    | some flag =>
      exact absurd (List.mem_map_of_mem Prod.fst (mem_of_lookup hl)) hkey
  simp [flagText, flagMapGet, hnone, hplain, JSValue.truthy]

/-- Unknown identifiers that name no inherited property can be removed from the selection
without changing the command. -/
theorem preview_ignores_plain_unknown (selected : List String) (target : String)
    (hplain : ∀ opt ∈ selected, opt ∉ optionIds → objectPrototypeGet opt = JSValue.undefined) :
    updateCommandPreview selected target
      = updateCommandPreview (selected.filter (fun opt => decide (opt ∈ optionIds))) target := by
  have hjoin : String.join (selected.map flagText)
      = String.join ((selected.filter (fun opt => decide (opt ∈ optionIds))).map flagText) := by
    induction selected with
    | nil => rfl
    | cons opt rest ih =>
      have hrest := ih (fun o ho => hplain o (List.mem_cons_of_mem _ ho))
      by_cases hk : opt ∈ optionIds
      · rw [List.filter_cons_of_pos (by simpa using hk), List.map_cons, List.map_cons,
          join_cons, join_cons, hrest]
      · rw [List.filter_cons_of_neg (by simpa using hk), List.map_cons, join_cons, hrest,
          flagText_of_undefined opt hk (hplain opt (List.mem_cons_self _ _) hk)]
        rfl
  have htop : (selected.filter (fun opt => decide (opt ∈ optionIds))).contains "top_ports"
      = selected.contains "top_ports" := by
    have hmem : "top_ports" ∈ optionIds := by decide
    rw [Bool.eq_iff_iff]
    simp [List.mem_filter, hmem]
  rw [updateCommandPreview_eq, updateCommandPreview_eq, hjoin, htop]

/-! ## Rendering -/

/-- Regrouping of the pieces of a port row around the three values supplied by the engine. -/
theorem row_regroup (a t a1 n b s c u1 d u2 e x f : String) :
    a ++ t ++ a1 ++ n ++ b ++ s ++ c ++ u1 ++ d ++ u2 ++ e ++ x ++ f
      = (a ++ t ++ a1) ++ n ++ (b ++ s ++ c) ++ u1 ++ d ++ u2 ++ (e ++ x ++ f) := by
  simp only [String.append_assoc]

/-- With at least one port and no row throwing, the table body is the concatenation of the
rows. -/
theorem displayResults_tbody_of_rows (js : Engine) (page : Page) (data : ScanResult)
    (rows : List String) (hne : (data.ports.length == 0) = false)
    (hrows : portRows js 0 data.ports = .ok rows) :
    (displayResults js page (some data)).1.tbody = String.join rows := by
  simp only [displayResults, hne, hrows]
  rfl

set_option maxRecDepth 100000 in
/-- C5, at the failing input: a port entry whose state and service name are both
`<script>`. The service name reaches the markup escaped; the state reaches it twice
unescaped, once inside the class attribute and once, in upper case, as content. This holds
for every engine, and with upper case taken on the ASCII letters the markup is as given. -/
theorem port_state_not_escaped (js : Engine) :
    (displayResults js freshPage
        (some { ports := [{ port := 80, state := some "<script>", protocol := some "tcp",
                            service := some "<script>" }]
                os_info := none, scan_info := none, command := "nmap", raw := none })).1.tbody
      = "\n            <tr style=\"animation-delay: 0ms\" class=\"port-row\">\n                <td><span class=\"port-number\">"
          ++ js.numberToString 80
          ++ "</span></td>\n                <td><span class=\"state-<script>\">"
          ++ js.toUpperCase "<script>"
          ++ "</span></td>\n                <td>"
          ++ js.toUpperCase "tcp"
          ++ "</td>\n                <td>&lt;script&gt;</td>\n            </tr>\n        "
    ∧ (displayResults asciiEngine freshPage
        (some { ports := [{ port := 80, state := some "<script>", protocol := some "tcp",
                            service := some "<script>" }]
                os_info := none, scan_info := none, command := "nmap", raw := none })).1.tbody
      = "\n            <tr style=\"animation-delay: 0ms\" class=\"port-row\">\n                <td><span class=\"port-number\">80</span></td>\n                <td><span class=\"state-<script>\"><SCRIPT></span></td>\n                <td>TCP</td>\n                <td>&lt;script&gt;</td>\n            </tr>\n        " := by
  constructor
  · have hA : "\n            <tr style=\"animation-delay: " ++ toString (0 * 50)
        ++ "ms\" class=\"port-row\">\n                <td><span class=\"port-number\">"
        = "\n            <tr style=\"animation-delay: 0ms\" class=\"port-row\">\n                <td><span class=\"port-number\">" := by
      decide
    have hB : "</span></td>\n                <td><span class=\"state-" ++ "<script>" ++ "\">"
        = "</span></td>\n                <td><span class=\"state-<script>\">" := by
      decide
    have hE : "</td>\n                <td>" ++ escapeHtml ((some "<script>").getD "")
        ++ "</td>\n            </tr>\n        "
        = "</td>\n                <td>&lt;script&gt;</td>\n            </tr>\n        " := by
      decide
    have htb := displayResults_tbody_of_rows js freshPage
      { ports := [{ port := 80, state := some "<script>", protocol := some "tcp",
                    service := some "<script>" }]
        os_info := none, scan_info := none, command := "nmap", raw := none }
      ["\n            <tr style=\"animation-delay: " ++ toString (0 * 50)
        ++ "ms\" class=\"port-row\">\n                <td><span class=\"port-number\">"
        ++ js.numberToString 80
        ++ "</span></td>\n                <td><span class=\"state-" ++ "<script>"
        ++ "\">" ++ js.toUpperCase "<script>"
        ++ "</span></td>\n                <td>" ++ js.toUpperCase "tcp"
        ++ "</td>\n                <td>" ++ escapeHtml ((some "<script>").getD "")
        ++ "</td>\n            </tr>\n        "] rfl rfl
    rw [htb, join_cons, join_nil, String.append_empty, row_regroup, hA, hB, hE]
  · decide

/-- The summary cards are written before anything can throw. -/
theorem displayResults_cards (js : Engine) (page : Page) (data : ScanResult) :
    (displayResults js page (some data)).1.portsFound = toString data.ports.length
    ∧ (displayResults js page (some data)).1.servicesFound
        = toString (data.ports.filter
            (fun p => strTruthy p.service && p.service != some "unknown")).length := by
  simp only [displayResults]
  split
  · exact ⟨rfl, rfl⟩
  · split <;> exact ⟨rfl, rfl⟩

/-- C6: the ports-found card shows the number of port entries, the services-found card the
number of entries whose service name is present, non-empty and not `unknown`; with no port
entry both show 0. The cards are written whether or not a later row throws. -/
theorem displayResults_counts (js : Engine) (page : Page) (data : ScanResult) :
    (displayResults js page (some data)).1.portsFound = toString data.ports.length
    ∧ (displayResults js page (some data)).1.servicesFound
        = toString (data.ports.countP hasKnownService)
    ∧ (displayResults js page (some { data with ports := [] })).1.portsFound = "0"
    ∧ (displayResults js page (some { data with ports := [] })).1.servicesFound = "0" := by
  have hzero : toString (0 : Nat) = "0" := by decide
  have hpred : (fun p : Port => strTruthy p.service && p.service != some "unknown")
      = hasKnownService := by
    funext p
    cases hs : p.service with
    | none => simp [strTruthy, hasKnownService, hs]
    | some name =>
      by_cases h1 : name = "" <;> by_cases h2 : name = "unknown" <;>
        simp [strTruthy, hasKnownService, hs, h1, h2]
  refine ⟨(displayResults_cards js page data).1, ?_, ?_, ?_⟩
  · rw [(displayResults_cards js page data).2, hpred, List.countP_eq_length_filter]
  · rw [(displayResults_cards js page { data with ports := [] }).1]
    exact hzero
  · rw [(displayResults_cards js page { data with ports := [] }).2]
    exact hzero

/-! ## Outcomes of a scan -/

/-- C7: when the parsed response has `success` false and error message `m`, the only call
made is `displayError(m)`; the table body is the error row around the escaped text of `m`,
which holds no `<` and no `>`, so the body has the six tags of the error row and no port
row; the message `host unreachable` is rendered as it is. -/
theorem failure_response_shows_message (js : Engine) (w : World) (i : Nat)
    (data : Option ScanResult) (m : String) (hp : w.pending[i]? = some Stage.awaitingJson) :
    (settle js w i (.jsonFulfilled { success := false, data := data, error := m })).trace
        = w.trace ++ [Effect.displayError m]
    ∧ (settle js w i (.jsonFulfilled { success := false, data := data, error := m })).page.tbody
        = errorRowOpen ++ escapeHtml m ++ errorRowClose
    ∧ '<' ∉ (escapeHtml m).toList
    ∧ '>' ∉ (escapeHtml m).toList
    ∧ (settle js w i (.jsonFulfilled { success := false, data := data, error := m })).page.tbody.toList.count '<'
        = 6
    ∧ escapeHtml "host unreachable" = "host unreachable" := by
  have hs : settle js w i (.jsonFulfilled { success := false, data := data, error := m })
      = finallyBlock { w with
          page := displayError w.page m
          trace := w.trace ++ [Effect.displayError m] } i := by
    have hp2 : w.pending[i]?
        = some (Settlement.jsonFulfilled { success := false, data := data, error := m }).stage :=
      hp
    unfold settle
    rw [if_pos hp2]
    rfl
  have htb : (settle js w i (.jsonFulfilled { success := false, data := data, error := m })).page.tbody
      = errorRowOpen ++ escapeHtml m ++ errorRowClose := by
    rw [hs]
    rfl
  refine ⟨?_, htb, escapeHtml_no_lt m, escapeHtml_no_gt m, ?_, by decide⟩
  · rw [hs]
    rfl
  · rw [htb]
    simp only [String.toList, String.data_append, List.count_append]
    have h0 : List.count '<' (escapeHtml m).data = 0 :=
      List.count_eq_zero.mpr (escapeHtml_no_lt m)
    have h1 : List.count '<' errorRowOpen.data = 3 := by decide
    have h2 : List.count '<' errorRowClose.data = 3 := by decide
    rw [h0, h1, h2]

/-- C7 for the response with error `host unreachable`, received by the one suspended
invocation of a fresh page. -/
theorem failure_response_shows_message_witness :
    (run asciiEngine (freshWorld []) [.invoke, .settled 0 .fetchFulfilled]).pending[0]?
        = some Stage.awaitingJson
    ∧ (settle asciiEngine (run asciiEngine (freshWorld []) [.invoke, .settled 0 .fetchFulfilled]) 0
          (.jsonFulfilled { success := false, data := none, error := "host unreachable" })).page.tbody
        = errorRowOpen ++ escapeHtml "host unreachable" ++ errorRowClose :=
  ⟨by decide,
   (failure_response_shows_message asciiEngine
      (run asciiEngine (freshWorld []) [.invoke, .settled 0 .fetchFulfilled])
      0 none "host unreachable" (by decide)).2.1⟩

/-- Whether a row throws, and its markup when it does not, do not depend on the text of
the engine's `TypeError`. -/
theorem portRow_withTypeError (js : Engine) (text : String → String) (index : Nat)
    (port : Port) :
    (portRow (js.withTypeError text) index port).toOption = (portRow js index port).toOption := by
  unfold portRow
  cases port.state with
  | none => rfl
  | some state =>
    cases port.protocol with
    | none => rfl
    | some protocol => rfl

theorem portRows_withTypeError (js : Engine) (text : String → String) (ports : List Port) :
    ∀ index, (portRows (js.withTypeError text) index ports).toOption
      = (portRows js index ports).toOption := by
  induction ports with
  | nil => intro index; rfl
  | cons port rest ih =>
    intro index
    have h := portRow_withTypeError js text index port
    have h2 := ih (index + 1)
    unfold portRows
    cases h1a : portRow (js.withTypeError text) index port with
    | error e1 =>
      cases h1b : portRow js index port with
      | error e2 => rfl
      | ok r2 => rw [h1a, h1b] at h; cases h
    | ok r1 =>
      cases h1b : portRow js index port with
      | error e2 => rw [h1a, h1b] at h; cases h
      | ok r2 =>
        rw [h1a, h1b] at h
        have hr : r1 = r2 := by simpa [Except.toOption] using h
        subst hr
        cases h2a : portRows (js.withTypeError text) (index + 1) rest with
        | error e1 =>
          cases h2b : portRows js (index + 1) rest with
          | error e2 => rfl
          | ok rs2 => rw [h2a, h2b] at h2; cases h2
        | ok rs1 =>
          cases h2b : portRows js (index + 1) rest with
          | error e2 => rw [h2a, h2b] at h2; cases h2
          | ok rs2 =>
            rw [h2a, h2b] at h2
            have hrs : rs1 = rs2 := by simpa [Except.toOption] using h2
            subst hrs
            rfl

/-- The page that `displayResults` leaves, and whether it throws, do not depend on the text
of the engine's `TypeError`. -/
theorem displayResults_withTypeError (js : Engine) (text : String → String) (page : Page)
    (data : Option ScanResult) :
    (displayResults (js.withTypeError text) page data).1 = (displayResults js page data).1
    ∧ (displayResults (js.withTypeError text) page data).2.isSome
        = (displayResults js page data).2.isSome := by
  cases data with
  | none => exact ⟨rfl, rfl⟩
  | some data =>
    have h := portRows_withTypeError js text data.ports 0
    simp only [displayResults]
    split
    · exact ⟨rfl, rfl⟩
    · cases ha : portRows (js.withTypeError text) 0 data.ports with
      | error e1 =>
        cases hb : portRows js 0 data.ports with
        | error e2 => exact ⟨rfl, rfl⟩
        | ok rs2 => rw [ha, hb] at h; cases h
      | ok rs1 =>
        cases hb : portRows js 0 data.ports with
        | error e2 => rw [ha, hb] at h; cases h
        | ok rs2 =>
          rw [ha, hb] at h
          have hrs : rs1 = rs2 := by simpa [Except.toOption] using h
          subst hrs
          exact ⟨rfl, rfl⟩

/-- The page after the `try` and `catch` blocks does not depend on the text of the engine's
`TypeError`. -/
theorem handled_page_withTypeError (js : Engine) (text : String → String) (w : World)
    (resp : ApiResponse) :
    (catchIfThrown (handleResponse (js.withTypeError text) w resp)).page
      = (catchIfThrown (handleResponse js w resp)).page := by
  obtain ⟨hpage, hthrown⟩ := displayResults_withTypeError js text w.page resp.data
  unfold handleResponse
  by_cases hs : resp.success = true
  · rw [if_pos hs, if_pos hs]
    dsimp only
    rw [hpage]
    cases ha : (displayResults (js.withTypeError text) w.page resp.data).2 with
    | none =>
      cases hb : (displayResults js w.page resp.data).2 with
      | none => rfl
      | some e2 => rw [ha, hb] at hthrown; cases hthrown
    | some e1 =>
      cases hb : (displayResults js w.page resp.data).2 with
      | none => rw [ha, hb] at hthrown; cases hthrown
      | some e2 => rfl
  · rw [if_neg hs, if_neg hs]

/-- The page after a settlement does not depend on the text of the error, whether the error
of a rejection or the engine's `TypeError`. -/
theorem settle_page_error_text (js : Engine) (text : String → String) (other : String)
    (w : World) (i : Nat) (s : Settlement) :
    (settle (js.withTypeError text) w i (s.withError other)).page = (settle js w i s).page := by
  have hstage : (s.withError other).stage = s.stage := by cases s <;> rfl
  unfold settle
  rw [hstage]
  by_cases hp : w.pending[i]? = some s.stage
  · rw [if_pos hp, if_pos hp]
    cases s with
    | fetchFulfilled => rfl
    | fetchRejected e => rfl
    | jsonRejected e => rfl
    | jsonNull => rfl
    | jsonFulfilled resp =>
      have h := handled_page_withTypeError js text w resp
      simp only [Settlement.withError, tryBlock, finallyBlock, h]
  · rw [if_neg hp, if_neg hp]

/-- C8: whenever an exception reaches the `catch` block (the request or the parsing of the
body is rejected, or handling the response throws, be it on a `null` body, on the first
statement of `displayResults`, or after `displayResults` has written the summary cards), the table body is the error row of the fixed message and the raw output
is the fixed message; the page is the page left by the `try` block with these two and the
button reset; the calls made are at most `displayResults`, then `displayError` of the fixed
message and `console.error` of the exception; and the page stays the same when the text of
the error is replaced by any other. -/
theorem transport_failure_shows_fixed_message (js : Engine) (w : World) (i : Nat)
    (s : Settlement) (error : String)
    (hp : w.pending[i]? = some s.stage) (hthrown : (tryBlock js w s).2 = some error) :
    (settle js w i s).page
        = { displayError (tryBlock js w s).1.page connectFailedMessage with
            loading := false, disabled := false }
    ∧ (settle js w i s).page.tbody = errorRowOpen ++ connectFailedMessage ++ errorRowClose
    ∧ (settle js w i s).page.rawContent
        = "Error: Failed to connect to the server. Please ensure the backend is running."
    ∧ (settle js w i s).trace
        = (tryBlock js w s).1.trace
            ++ [Effect.displayError connectFailedMessage, Effect.consoleError error]
    ∧ ((tryBlock js w s).1.trace = w.trace
        ∨ (tryBlock js w s).1.trace = w.trace ++ [Effect.displayResults])
    ∧ ∀ (text : String → String) (other : String),
        (settle (js.withTypeError text) w i (s.withError other)).page = (settle js w i s).page := by
  have hfin : s ≠ Settlement.fetchFulfilled := by
    intro h
    subst h
    simp [tryBlock] at hthrown
  obtain ⟨he, _, _⟩ := settle_final js w i s hp hfin
  have hc : catchIfThrown (tryBlock js w s) = catchBlock (tryBlock js w s).1 error := by
    unfold catchIfThrown
    rw [hthrown]
  have hesc : escapeHtml connectFailedMessage = connectFailedMessage := by decide
  rw [he, hc]
  refine ⟨rfl, ?_, rfl, rfl, ?_, ?_⟩
  · simp [finallyBlock, catchBlock, displayError, hesc]
  · cases s with
    | fetchFulfilled => exact absurd rfl hfin
    | fetchRejected e => exact Or.inl rfl
    | jsonRejected e => exact Or.inl rfl
    | jsonNull => exact Or.inl rfl
    | jsonFulfilled resp =>
      simp only [tryBlock, handleResponse] at hthrown ⊢
      by_cases hs : resp.success = true
      · rw [if_pos hs] at hthrown ⊢
        right
        dsimp only
        cases (displayResults js w.page resp.data).2 <;> rfl
      · rw [if_neg hs] at hthrown
        cases hthrown
  · intro text other
    rw [settle_page_error_text js text other w i s, he, hc]

/-- C8 for a successful response whose only port entry has no state: `displayResults`
writes the summary cards, then throws, and the fixed message is shown. -/
theorem transport_failure_shows_fixed_message_witness :
    (run asciiEngine (freshWorld []) [.invoke, .settled 0 .fetchFulfilled]).pending[0]?
        = some (Settlement.jsonFulfilled
            { success := true
              data := some { ports := [{ port := 80, state := none, protocol := some "tcp",
                                         service := some "http" }]
                             os_info := none, scan_info := none, command := "nmap",
                             raw := none }
              error := "" }).stage
    ∧ (tryBlock asciiEngine
          (run asciiEngine (freshWorld []) [.invoke, .settled 0 .fetchFulfilled])
          (.jsonFulfilled
            { success := true
              data := some { ports := [{ port := 80, state := none, protocol := some "tcp",
                                         service := some "http" }]
                             os_info := none, scan_info := none, command := "nmap",
                             raw := none }
              error := "" })).2 = some (asciiEngine.typeError "toUpperCase")
    ∧ (settle asciiEngine
          (run asciiEngine (freshWorld []) [.invoke, .settled 0 .fetchFulfilled]) 0
          (.jsonFulfilled
            { success := true
              data := some { ports := [{ port := 80, state := none, protocol := some "tcp",
                                         service := some "http" }]
                             os_info := none, scan_info := none, command := "nmap",
                             raw := none }
              error := "" })).page.tbody
        = errorRowOpen ++ connectFailedMessage ++ errorRowClose
    ∧ (settle asciiEngine
          (run asciiEngine (freshWorld []) [.invoke, .settled 0 .fetchFulfilled]) 0
          (.jsonFulfilled
            { success := true
              data := some { ports := [{ port := 80, state := none, protocol := some "tcp",
                                         service := some "http" }]
                             os_info := none, scan_info := none, command := "nmap",
                             raw := none }
              error := "" })).page.portsFound = "1" :=
  ⟨by decide, by decide,
   (transport_failure_shows_fixed_message asciiEngine
      (run asciiEngine (freshWorld []) [.invoke, .settled 0 .fetchFulfilled]) 0
      (.jsonFulfilled
        { success := true
          data := some { ports := [{ port := 80, state := none, protocol := some "tcp",
                                     service := some "http" }]
                         os_info := none, scan_info := none, command := "nmap",
                         raw := none }
          error := "" })
      (asciiEngine.typeError "toUpperCase") (by decide) (by decide)).2.1,
   by decide⟩

/-- The exceptions that reach the `catch` block: the error of a rejected request, the error
of a body that does not parse, the `TypeError` of reading `success` from a `null` body, and
the `TypeError` of `displayResults` when a successful response holds no `data`. -/
theorem tryBlock_throws (js : Engine) (w : World) (error message : String) :
    (tryBlock js w (.fetchRejected error)).2 = some error
    ∧ (tryBlock js w (.jsonRejected error)).2 = some error
    ∧ (tryBlock js w .jsonNull).2 = some (js.typeError "success")
    ∧ (tryBlock js w (.jsonFulfilled { success := true, data := none, error := message })).2
        = some (js.typeError "ports") :=
  ⟨rfl, rfl, rfl, rfl⟩

/-- C9: an invocation of `runScan` while the button is loading changes nothing, neither the
page nor the record of requests; and after any sequence of invocations and settlements
from an idle state at most one invocation is suspended. -/
theorem pending_invocation_is_noop (js : Engine) (w : World) (hload : w.page.loading = true)
    (w0 : World) (hidle : w0.idle) (events : List Event) :
    runScan w = w ∧ (run js w0 events).pending.length ≤ 1 := by
  constructor
  · simp [runScan, hload]
  · exact length_le_one_of_inv _ (run_inv js events w0 (inv_of_idle w0 hidle))

/-- C9 for a second and a third click while the first scan is awaited. -/
theorem pending_invocation_is_noop_witness :
    (run asciiEngine (freshWorld ["verbose"]) [.invoke]).page.loading = true
    ∧ (freshWorld ["verbose"]).idle
    ∧ runScan (run asciiEngine (freshWorld ["verbose"]) [.invoke])
        = run asciiEngine (freshWorld ["verbose"]) [.invoke]
    ∧ (run asciiEngine (freshWorld ["verbose"])
          [.invoke, .invoke, .settled 0 .fetchFulfilled, .invoke]).pending.length ≤ 1 :=
  ⟨by decide, ⟨rfl, rfl⟩,
   pending_invocation_is_noop asciiEngine (run asciiEngine (freshWorld ["verbose"]) [.invoke])
     (by decide) (freshWorld ["verbose"]) ⟨rfl, rfl⟩
     [.invoke, .invoke, .settled 0 .fetchFulfilled, .invoke]⟩

/-- C10: whatever ends a suspended invocation (a rejected request, a body that does not
parse, or a parsed body of any content), afterwards the loading flag is off, the button
is enabled, the invocation is no longer suspended, and the next invocation of `runScan` is
accepted: it issues a request. -/
theorem every_outcome_resets_button (js : Engine) (w : World) (i : Nat) (s : Settlement)
    (hp : w.pending[i]? = some s.stage) (hfin : s ≠ Settlement.fetchFulfilled) :
    (settle js w i s).page.loading = false
    ∧ (settle js w i s).page.disabled = false
    ∧ (settle js w i s).pending = w.pending.eraseIdx i
    ∧ (runScan (settle js w i s)).trace = (settle js w i s).trace ++ [Effect.request w.checked]
    ∧ (runScan (settle js w i s)).page.loading = true := by
  obtain ⟨he, hpend, hchk⟩ := settle_final js w i s hp hfin
  rw [he]
  refine ⟨rfl, rfl, ?_, ?_, ?_⟩
  · simp [finallyBlock, hpend]
  · simp [runScan, finallyBlock, hchk]
  · simp [runScan, finallyBlock, clearResults]

/-- C10 for a successful response received by the one suspended invocation of a fresh
page. -/
theorem every_outcome_resets_button_witness :
    (run asciiEngine (freshWorld []) [.invoke, .settled 0 .fetchFulfilled]).pending[0]?
        = some (Settlement.jsonFulfilled
            { success := true
              data := some { ports := [], os_info := none, scan_info := none,
                             command := "nmap", raw := none }
              error := "" }).stage
    ∧ (settle asciiEngine
          (run asciiEngine (freshWorld []) [.invoke, .settled 0 .fetchFulfilled]) 0
          (.jsonFulfilled
            { success := true
              data := some { ports := [], os_info := none, scan_info := none,
                             command := "nmap", raw := none }
              error := "" })).page.loading = false :=
  ⟨by decide,
   (every_outcome_resets_button asciiEngine
      (run asciiEngine (freshWorld []) [.invoke, .settled 0 .fetchFulfilled]) 0
      (.jsonFulfilled
        { success := true
          data := some { ports := [], os_info := none, scan_info := none,
                         command := "nmap", raw := none }
          error := "" }) (by decide) (by decide)).1⟩

end NmapUI
